/-
Verification of the PlasmaPy `ParticleTracker` core
(`plasmapy/simulation/particle_tracker.py`) against its natural-language
specification.

The development is a shallow embedding: numpy float arrays over finite
index sets become functions out of `Fin n`; machine floats become either
real numbers (`ℝ`), the marker type `FpVal` (a real number or a NaN-like
non-finite marker) where NaN propagation matters, or nonnegative extended
reals (`ℝ≥0∞`) where IEEE division-by-zero semantics (`x / 0 = +inf` for
`x > 0`) matter.  External collaborators of the tracker (the field grids'
`on_grid` / interpolator methods and the `boris_push` integrator from
`particle_integrators.py`, which is not part of the sources under
verification) are modelled as parameters.
-/
import Mathlib

open scoped ENNReal BigOperators

namespace PlasmaPy

/-! ## Floating-point values with a non-finite marker

`np.nan_to_num` and the off-grid NaN convention of the interpolators are
the only places where the tracker's behaviour depends on non-finite
floats, so a two-constructor model suffices: a value is either a finite
real or the non-finite marker `nan`. -/

/-- A floating-point value as held in the tracker's field arrays: either a
finite real number, or the non-finite marker that the grid interpolators
produce for positions off the grid. -/
inductive FpVal where
  | fin (x : ℝ)
  | nan

/-- Addition of floating-point values: NaN is absorbing, exactly as for
IEEE floats (`0 + nan = nan`, per the comment in `_push`). -/
def FpVal.add : FpVal → FpVal → FpVal
  | .fin x, .fin y => .fin (x + y)
  | _, _ => .nan

/-- Whether a value is finite (`np.isfinite`). -/
def FpVal.isFinite : FpVal → Bool
  | .fin _ => true
  | .nan => false

/-- The underlying real number of a finite value; `0` for the marker.
Only applied to values already proved finite. -/
def FpVal.toR : FpVal → ℝ
  | .fin x => x
  | .nan => 0

/-- Model of `np.nan_to_num(_, nan=0.0)`: replace the non-finite marker by zero,
leave finite values unchanged. -/
def nan_to_num : FpVal → FpVal
  | .nan => .fin 0
  | .fin x => .fin x

/-- The six field components `(E_x, E_y, E_z, B_x, B_y, B_z)` interpolated
at one particle position by one grid. -/
structure Fields where
  Ex : FpVal
  Ey : FpVal
  Ez : FpVal
  Bx : FpVal
  By : FpVal
  Bz : FpVal

/-- The running totals before the grid loop of `_push`: six zero arrays
(`np.zeros(...)` for each component). -/
def zero_fields : Fields :=
  ⟨.fin 0, .fin 0, .fin 0, .fin 0, .fin 0, .fin 0⟩

/-- One iteration of the grid loop of `_push`: apply `nan_to_num` to every
component interpolated from the current grid, then add the result to the
running totals (`Ex += _Ex`, etc.). -/
def add_grid (tot contrib : Fields) : Fields where
  Ex := tot.Ex.add (nan_to_num contrib.Ex)
  Ey := tot.Ey.add (nan_to_num contrib.Ey)
  Ez := tot.Ez.add (nan_to_num contrib.Ez)
  Bx := tot.Bx.add (nan_to_num contrib.Bx)
  By := tot.By.add (nan_to_num contrib.By)
  Bz := tot.Bz.add (nan_to_num contrib.Bz)

/-- The full grid loop of `_push` at one particle position: fold the
per-grid interpolation results into the zero totals, zero-filling
non-finite components before each addition. -/
def sum_interp (contribs : List Fields) : Fields :=
  contribs.foldl add_grid zero_fields

/-- All six summed components are finite. -/
def Fields.allFinite (f : Fields) : Bool :=
  f.Ex.isFinite && f.Ey.isFinite && f.Ez.isFinite &&
    f.Bx.isFinite && f.By.isFinite && f.Bz.isFinite

/-! ## Tracker simulation state and the push loop

State mutated by `ParticleTracker.run` / `ParticleTracker._push`:
positions `self.x`, velocities `self.v` (shape `[N, 3]`), the boolean
on-grid membership array `self.on_grid` (shape `[N, G]`) and the
`self.entered_grid` counters (shape `[N]`). -/

/-- A 3-vector of reals (one row of an `[N, 3]` numpy array). -/
abbrev V3 : Type := ℝ × ℝ × ℝ

/-- The tracker state read and written by the push loop, for `N` particles
and `G` grids. -/
structure SimState (N G : ℕ) where
  x : Fin N → V3
  v : Fin N → V3
  on_grid : Fin N → Fin G → Bool
  entered_grid : Fin N → ℕ

/-- Model of `np.sum(self.on_grid, axis=-1)` for one particle: the number of grids
the particle currently occupies. -/
def count_on {N G : ℕ} (og : Fin N → Fin G → Bool) (i : Fin N) : ℕ :=
  (List.finRange G).countP fun g => og i g

/-- Model of the `on_any_grid` property: `np.sum(self.on_grid, axis=-1) > 0`. -/
def on_any_grid {N G : ℕ} (s : SimState N G) (i : Fin N) : Bool :=
  decide (0 < count_on s.on_grid i)

/-- Timestep configuration stored in `self.dt` by `run`: numpy size-1
array (an explicitly forced scalar timestep) or a two-element
`[min, max]` range for the adaptive policy. -/
inductive DtSpec where
  | fixed (d : ℝ≥0∞)
  | range (lo hi : ℝ≥0∞)

/-- Inputs read by `ParticleTracker._adaptive_dt`: particle velocities
(`self.v`), the freshly updated on-grid array (`self.on_grid`), the grid
resolutions (`grid.grid_resolution`), the interpolated magnetic field at
each particle, and the species charge and mass `self.q` / `self.m`. -/
structure AdaptIn (N G : ℕ) where
  v : Fin N → V3
  on_grid : Fin N → Fin G → Bool
  ds : Fin G → ℝ≥0∞
  Bvec : Fin N → V3
  q : ℝ
  m : ℝ

/-- The external collaborators a push step calls, plus the configuration
fixed for a whole run.  `on_grid_oracle` and `interp` model the grid
objects' `on_grid` and interpolator methods (external to the tracker),
`boris` models `boris_push` from `particle_integrators.py` (imported, not
part of the verified source): it receives positions, velocities, the
summed `B` and `E` arrays and the per-particle timesteps and returns the
updated positions and velocities. -/
structure PushEnv (N G : ℕ) where
  on_grid_oracle : Fin G → V3 → Bool
  interp : Fin G → V3 → Fields
  ds : Fin G → ℝ≥0∞
  q : ℝ
  m : ℝ
  dtspec : DtSpec
  boris : (Fin N → V3) → (Fin N → V3) → (Fin N → V3) → (Fin N → V3) →
    (Fin N → ℝ≥0∞) → (Fin N → V3) × (Fin N → V3)

/-- Model of `np.linalg.norm` of one row of an `[N, 3]` array. -/
noncomputable def norm3 (w : V3) : ℝ :=
  Real.sqrt (w.1 ^ 2 + w.2.1 ^ 2 + w.2.2 ^ 2)

/-- Model of the `vmax` property: `np.max(np.linalg.norm(self.v, axis=-1))`, the
maximum instantaneous speed over the whole particle population. -/
noncomputable def vmax {N G : ℕ} (a : AdaptIn N G) : ℝ≥0∞ :=
  Finset.univ.sup fun i => ENNReal.ofReal (norm3 (a.v i))

/-- Model of `gridstep = 0.5 * (ds / self.vmax)`: the Courant-like candidate
timestep of one grid, shared by the whole population. -/
noncomputable def gridstep {N G : ℕ} (a : AdaptIn N G) (g : Fin G) : ℝ≥0∞ :=
  (1 / 2 : ℝ≥0∞) * (a.ds g / vmax a)

/-- Model of `Bmag = np.max(np.sqrt(Bx**2 + By**2 + Bz**2))`: the maximum magnetic
field magnitude over the particles. -/
noncomputable def bmag {N G : ℕ} (a : AdaptIn N G) : ℝ≥0∞ :=
  Finset.univ.sup fun i => ENNReal.ofReal (norm3 (a.Bvec i))

/-- The cyclotron gyroperiod computed by `_adaptive_dt`: infinite when the
field magnitude is zero, otherwise `2 * np.pi * self.m / (self.q * Bmag)`. -/
noncomputable def gyroperiod {N G : ℕ} (a : AdaptIn N G) : ℝ≥0∞ :=
  if bmag a = 0 then ⊤
  else ENNReal.ofReal (2 * Real.pi * a.m / (a.q * (bmag a).toReal))

/-- The `candidates` array of `_adaptive_dt` (shape `[N, G + 1]`): column
`g < G` holds `np.where(self.on_grid[:, g] > 0, gridstep[g], np.inf)`,
and the final column holds `gyroperiod / 12`. -/
noncomputable def candidate {N G : ℕ} (a : AdaptIn N G) (i : Fin N)
    (j : Fin (G + 1)) : ℝ≥0∞ :=
  if h : (j : ℕ) < G then
    (if a.on_grid i ⟨j, h⟩ then gridstep a ⟨j, h⟩ else ⊤)
  else gyroperiod a / 12

/-- Model of `np.clip(x, lo, hi)` on nonnegative extended reals. -/
noncomputable def clip (lo hi x : ℝ≥0∞) : ℝ≥0∞ :=
  min (max x lo) hi

/-- Model of `np.min(np.clip(candidates, self.dt[0], self.dt[1]), axis=-1)`: the
per-particle minimum over the clamped candidates. -/
noncomputable def dt_min {N G : ℕ} (a : AdaptIn N G) (lo hi : ℝ≥0∞)
    (i : Fin N) : ℝ≥0∞ :=
  Finset.univ.inf fun j => clip lo hi (candidate a i j)

/-- Model of `ParticleTracker._adaptive_dt`: return the forced timestep when
`self.dt.size == 1`; otherwise take the per-particle minimum over the
clamped candidates and replace an infinite minimum by `np.max(gridstep)`. -/
noncomputable def adaptive_dt {N G : ℕ} (spec : DtSpec) (a : AdaptIn N G)
    (i : Fin N) : ℝ≥0∞ :=
  match spec with
  | .fixed d => d
  | .range lo hi =>
      if dt_min a lo hi i = ⊤ then Finset.univ.sup (gridstep a)
      else dt_min a lo hi i

/-- Model of `ParticleTracker._push`: recompute the on-grid array from the current
positions, accumulate the `entered_grid` counters, interpolate and sum
the fields over all grids (zero-filling off-grid NaNs per grid), compute
the adaptive timestep and hand everything to the external Boris pusher. -/
noncomputable def push {N G : ℕ} (env : PushEnv N G) (s : SimState N G) :
    SimState N G :=
  let og : Fin N → Fin G → Bool := fun i g => env.on_grid_oracle g (s.x i)
  let entered : Fin N → ℕ := fun i => s.entered_grid i + count_on og i
  let fld : Fin N → Fields :=
    fun i => sum_interp ((List.finRange G).map fun g => env.interp g (s.x i))
  let E : Fin N → V3 :=
    fun i => ((fld i).Ex.toR, (fld i).Ey.toR, (fld i).Ez.toR)
  let B : Fin N → V3 :=
    fun i => ((fld i).Bx.toR, (fld i).By.toR, (fld i).Bz.toR)
  let dt : Fin N → ℝ≥0∞ :=
    adaptive_dt env.dtspec
      { v := s.v, on_grid := og, ds := env.ds, Bvec := B, q := env.q, m := env.m }
  let xv := env.boris s.x s.v B E dt
  { x := xv.1, v := xv.2, on_grid := og, entered_grid := entered }

/-- The state set up by `run` just before entering the while loop:
loaded positions and velocities, `self.on_grid = np.zeros([N, G])` and
`self.entered_grid = np.zeros([N])`. -/
def run_init {N G : ℕ} (x v : Fin N → V3) : SimState N G where
  x := x
  v := v
  on_grid := fun _ _ => false
  entered_grid := fun _ => 0

/-- The base class `ParticleTracker._stop_condition`: always `False`. -/
def stop_condition_base {N G : ℕ} (_ : SimState N G) : Bool := false

/-- Modelled from the spec: the `NoParticlesOnGridsTerminationCondition`
variant is imported by the test-suite but absent from the sources under
`src/`; per the spec it stops when zero particles currently overlap any
grid and at least one particle has ever entered a grid. -/
def no_particles_on_grids_stop {N G : ℕ} (s : SimState N G) : Bool :=
  ((List.finRange N).all fun i => !on_any_grid s i) &&
    ((List.finRange N).any fun i => decide (0 < s.entered_grid i))

/-- The while loop of `run`, with explicit fuel: test the termination
predicate on the current state; if it signals stop, return the current
state, otherwise take one push step and repeat.  Returns `none` when the
fuel is exhausted before the predicate signals stop. -/
def run_loop {α : Type} (stop : α → Bool) (step : α → α) :
    ℕ → α → Option α
  | 0, _ => none
  | Nat.succ fuel, s =>
      match stop s with
      | true => some s
      | false => run_loop stop step fuel (step s)

/-! ## Tracker lifecycle: construction flag, `load_particles`, `run`

`ParticleTracker` keeps a `self._has_run` latch, set at the end of `run`.
`_enforce_order` raises `RuntimeError` when the latch is set, but in the
source it is invoked only by `load_particles` — `run` itself never
consults the latch. -/

/-- The error kinds raised by the tracker's validation code. -/
inductive RunError where
  | typeError
  | valueError
  | runtimeError
deriving DecidableEq

/-- The lifecycle-relevant attributes of a `ParticleTracker`: the
`_has_run` latch and the loaded particle arrays (`self.x`, `self.v`),
absent until `load_particles` has been called. -/
structure Tracker (N G : ℕ) where
  has_run : Bool
  particles : Option ((Fin N → V3) × (Fin N → V3))

/-- Model of `ParticleTracker._enforce_order`: raise `RuntimeError` when the
simulation has already been run. -/
def enforce_order {N G : ℕ} (t : Tracker N G) : Except RunError Unit :=
  match t.has_run with
  | true => .error .runtimeError
  | false => .ok ()

/-- Model of `ParticleTracker.run`: validate the field weighting and that particles
were loaded (`_validate_inputs`, `ValueError` on failure), run the while
loop from the freshly initialized state, and set `self._has_run = True`
on completion.  The result is `none` when the loop does not finish within
the given fuel (the call does not return), and `some r` with `r` the
raised error or the updated tracker otherwise.  Exactly as in the source,
the `_has_run` latch is never consulted here. -/
noncomputable def run_tracker {N G : ℕ} (env : PushEnv N G) (stop : SimState N G → Bool)
    (fuel : ℕ) (weighting_ok : Bool) (t : Tracker N G) :
    Option (Except RunError (Tracker N G)) :=
  match weighting_ok with
  | false => some (.error .valueError)
  | true =>
      match t.particles with
      | none => some (.error .valueError)
      | some p =>
          match run_loop stop (push env) fuel (run_init p.1 p.2) with
          | none => none
          | some _ => some (.ok { t with has_run := true })

/-- A concrete environment for exercising the lifecycle: one particle, one
grid, trivial oracles, identity integrator. -/
noncomputable def env₀ : PushEnv 1 1 where
  on_grid_oracle := fun _ _ => false
  interp := fun _ _ => zero_fields
  ds := fun _ => 1
  q := 1
  m := 1
  dtspec := .fixed 1
  boris := fun x v _ _ _ => (x, v)

/-- A freshly constructed tracker with one particle loaded. -/
def t₀ : Tracker 1 1 where
  has_run := false
  particles := some (fun _ => (0, 0, 0), fun _ => (0, 0, 0))

/-- The same tracker after a completed run (`_has_run` latched). -/
def t₁ : Tracker 1 1 := { t₀ with has_run := true }

/-- A termination condition that signals stop immediately (any
`_stop_condition` override evaluating to `True` on the state at hand). -/
def stop_now {N G : ℕ} (_ : SimState N G) : Bool := true

/-- A concrete all-zero-velocity input: one particle at rest, one grid of
unit resolution, no magnetic field. -/
noncomputable def a10 : AdaptIn 1 1 where
  v := fun _ => (0, 0, 0)
  on_grid := fun _ _ => true
  ds := fun _ => 1
  Bvec := fun _ => (0, 0, 0)
  q := 1
  m := 1

/-- A concrete input for the clamped-minimum computation: one particle of
unit speed on one grid of unit resolution, no magnetic field. -/
noncomputable def a4 : AdaptIn 1 1 where
  v := fun _ => (1, 0, 0)
  on_grid := fun _ _ => true
  ds := fun _ => 1
  Bvec := fun _ => (0, 0, 0)
  q := 1
  m := 1

/-- The claim's per-particle grid-resolution candidate: half the grid's
local resolution divided by that particle's own instantaneous speed for
an occupied grid, infinite otherwise.  Stated from the claim's words, for
comparison with the source's `candidate`. -/
noncomputable def candidate_per_particle {N G : ℕ} (a : AdaptIn N G)
    (i : Fin N) (g : Fin G) : ℝ≥0∞ :=
  if a.on_grid i g then
    (1 / 2 : ℝ≥0∞) * (a.ds g / ENNReal.ofReal (norm3 (a.v i)))
  else ⊤

/-- Two particles with speeds `1` and `2`, both on a single grid of unit
resolution. -/
noncomputable def a3 : AdaptIn 2 1 where
  v := fun i => (((i : ℕ) : ℝ) + 1, 0, 0)
  on_grid := fun _ _ => true
  ds := fun _ => 1
  Bvec := fun _ => (0, 0, 0)
  q := 1
  m := 1

/-! ## Construction-time validation of required field quantities

`ParticleTracker.__init__` loops over the grids; for each grid it first
calls the external `grid.require_quantities(req_quantities,
replace_with_zeros=True)` (modelled as returning normally, which is the
situation all claims condition on) and then iterates over
`req_quantities` itself, checking every required quantity for non-finite
entries (`ValueError`) and comparing the edge maximum of its absolute
values against `1e-3` times the array maximum (a non-fatal
`RuntimeWarning`).  Iterating over `req_quantities = None` raises a
`TypeError` in Python. -/

/-- One gridded quantity (`grid[rq]`): a three-dimensional array of
floating-point values. -/
structure QArr where
  n₁ : ℕ
  n₂ : ℕ
  n₃ : ℕ
  val : Fin n₁ → Fin n₂ → Fin n₃ → FpVal

/-- All index triples of a three-dimensional array. -/
def triples (n₁ n₂ n₃ : ℕ) : List (Fin n₁ × Fin n₂ × Fin n₃) :=
  (List.finRange n₁).flatMap fun i =>
    (List.finRange n₂).flatMap fun j =>
      (List.finRange n₃).map fun k => (i, j, k)

/-- Model of `np.isfinite(grid[rq].value).all()`. -/
def QArr.finiteAll (a : QArr) : Bool :=
  (triples a.n₁ a.n₂ a.n₃).all fun t => (a.val t.1 t.2.1 t.2.2).isFinite

/-- The absolute value of the entry at one index
(`np.abs(grid[rq]).value`). -/
noncomputable def QArr.absAt (a : QArr) (t : Fin a.n₁ × Fin a.n₂ × Fin a.n₃) : ℝ :=
  |(a.val t.1 t.2.1 t.2.2).toR|

/-- Whether an index lies on one of the six boundary faces
(`arr[0,:,:], arr[-1,:,:], arr[:,0,:], arr[:,-1,:], arr[:,:,0],
arr[:,:,-1]`). -/
def QArr.isFace (a : QArr) (t : Fin a.n₁ × Fin a.n₂ × Fin a.n₃) : Bool :=
  decide (t.1.val = 0) || decide (t.1.val = a.n₁ - 1) ||
    decide (t.2.1.val = 0) || decide (t.2.1.val = a.n₂ - 1) ||
    decide (t.2.2.val = 0) || decide (t.2.2.val = a.n₃ - 1)

/-- Maximum of a list of nonnegative reals under the fold base `0` (the
arrays at hand hold absolute values, so the base never exceeds the true
maximum of a nonempty list). -/
noncomputable def maxR (l : List ℝ) : ℝ := l.foldr max 0

/-- Model of `edge_max`: the maximum absolute value over the six boundary faces. -/
noncomputable def edge_max (a : QArr) : ℝ :=
  maxR (((triples a.n₁ a.n₂ a.n₃).filter a.isFace).map a.absAt)

/-- Model of `np.max(arr)`: the maximum absolute value over the whole array, the
quantity the source compares edge values against. -/
noncomputable def global_max (a : QArr) : ℝ :=
  maxR ((triples a.n₁ a.n₂ a.n₃).map a.absAt)

/-- The claim's interior maximum: the maximum absolute value over the
indices on none of the six boundary faces. -/
noncomputable def interior_max (a : QArr) : ℝ :=
  maxR (((triples a.n₁ a.n₂ a.n₃).filter fun t => !a.isFace t).map a.absAt)

/-- The source's warning condition for one required quantity:
`edge_max > 1e-3 * np.max(arr)`. -/
noncomputable def warns (a : QArr) : Prop :=
  edge_max a > (1 / 1000) * global_max a

/-- Validation of the required quantities of one grid: the loop
`for rq in req_quantities` with its finiteness check; the edge-value
comparison only issues a warning and does not affect control flow. -/
def check_quantities {Q : Type} (g : Q → QArr) : List Q → Except RunError Unit
  | [] => .ok ()
  | rq :: rest =>
      match (g rq).finiteAll with
      | false => .error .valueError
      | true => check_quantities g rest

/-- Model of `ParticleTracker.__init__` after the grid-type dispatch: loop over the
grids; per grid, `require_quantities` (external, modelled as returning
normally) followed by the iteration over `req_quantities` — which raises
a `TypeError` when `req_quantities` is `None`, because `None` is not
iterable — and the per-quantity finiteness check. -/
def tracker_init {Q : Type} (grids : List (Q → QArr)) (req : Option (List Q)) :
    Except RunError Unit :=
  match grids with
  | [] => .ok ()
  | g :: rest =>
      match req with
      | none => .error .typeError
      | some rqs =>
          match check_quantities g rqs with
          | .error e => .error e
          | .ok _ => tracker_init rest req

/-- A concrete 1×1×1 quantity array holding the finite value `1`. -/
def qa7 : QArr := ⟨1, 1, 1, fun _ _ _ => .fin 1⟩

/-- A concrete grid providing `qa7` for every quantity name. -/
def grid7 : Unit → QArr := fun _ => qa7

/-! ## Stopping and removing particles

`_stop_particles` and `_remove_particles` are exercised by the
test-suite but absent from the sources under `src/`; they are modelled
from the spec below. -/

/-- Particle arrays in which individual components may carry the NaN
deactivation sentinel. -/
structure PState (N : ℕ) where
  x : Fin N → FpVal × FpVal × FpVal
  v : Fin N → FpVal × FpVal × FpVal

/-- All three components of a row are finite. -/
def finite3 (w : FpVal × FpVal × FpVal) : Bool :=
  w.1.isFinite && w.2.1.isFinite && w.2.2.isFinite

/-- Modelled from the spec: `_stop_particles` (called by the test-suite,
missing from `src/`) requires the mask length to equal the particle
count (`ValueError`-kind error otherwise) and sets the velocity of every
masked particle to NaN, leaving positions untouched. -/
def stop_particles {N : ℕ} (s : PState N) (mask : List Bool) :
    Except RunError (PState N) :=
  if h : mask.length = N then
    .ok { x := s.x,
          v := fun i =>
            if mask.get (Fin.cast h.symm i) then (.nan, .nan, .nan)
            else s.v i }
  else .error .valueError

/-- Modelled from the spec: `_remove_particles` (called by the
test-suite, missing from `src/`) behaves like `_stop_particles` and
additionally sets the masked particles' position components to NaN. -/
def remove_particles {N : ℕ} (s : PState N) (mask : List Bool) :
    Except RunError (PState N) :=
  if h : mask.length = N then
    .ok { x := fun i =>
            if mask.get (Fin.cast h.symm i) then (.nan, .nan, .nan)
            else s.x i,
          v := fun i =>
            if mask.get (Fin.cast h.symm i) then (.nan, .nan, .nan)
            else s.v i }
  else .error .valueError

/-- A one-particle state with all components finite. -/
def ps5 : PState 1 :=
  ⟨fun _ => (.fin 0, .fin 0, .fin 0), fun _ => (.fin 0, .fin 0, .fin 0)⟩

/-! ## A concrete terminating run

One particle starting at the origin of a single grid covering exactly the
points with first coordinate zero; the integrator moves it to `(1,0,0)`,
off the grid, so the `NoParticlesOnGrids` condition stops the loop after
two push steps. -/

/-- One particle, one grid containing exactly the plane `x = 0`; the
external integrator always moves the particle to `(1, 0, 0)`. -/
noncomputable def env1 : PushEnv 1 1 where
  on_grid_oracle := fun _ p => if p.1 = 0 then true else false
  interp := fun _ _ => zero_fields
  ds := fun _ => 1
  q := 1
  m := 1
  dtspec := .fixed 1
  boris := fun _ v _ _ _ => (fun _ => (1, 0, 0), v)

/-- The particle's initial position and velocity. -/
def x1 : Fin 1 → V3 := fun _ => (0, 0, 0)

/-! ## Theorems -/

theorem isFinite_add_nan_to_num (a b : FpVal) :
    (a.add (nan_to_num b)).isFinite = a.isFinite := by
  cases a <;> cases b <;> rfl

theorem allFinite_add_grid (tot contrib : Fields) :
    (add_grid tot contrib).allFinite = tot.allFinite := by
  simp [add_grid, Fields.allFinite, isFinite_add_nan_to_num]

theorem allFinite_foldl (l : List Fields) (tot : Fields)
    (h : tot.allFinite = true) : (l.foldl add_grid tot).allFinite = true := by
  induction l generalizing tot with
  | nil => exact h
  | cons f rest ih =>
    simp only [List.foldl_cons]
    exact ih _ (by rw [allFinite_add_grid]; exact h)

/-- C6. In each step of the push loop, every non-finite (off-grid)
interpolated field component is replaced by zero before that grid's
contribution is added to the running per-component totals, so the summed
`E` and `B` fields over any number of overlapping or non-overlapping
grids contain no NaN arising from off-grid points: for every list of
per-grid interpolation results — each component finite or not — all six
components of the accumulated sum are finite. -/
theorem summed_fields_contain_no_nan (contribs : List Fields) :
    (sum_interp contribs).allFinite = true :=
  allFinite_foldl contribs zero_fields rfl

theorem run_loop_eq_some_iff {α : Type} (stop : α → Bool) (step : α → α)
    (fuel : ℕ) (s t : α) :
    run_loop stop step fuel s = some t ↔
      ∃ k, k < fuel ∧ t = step^[k] s ∧ stop t = true ∧
        ∀ j, j < k → stop (step^[j] s) = false := by
  induction fuel generalizing s with
  | zero => simp [run_loop]
  | succ n ih =>
    cases hst : stop s with
    | true =>
      simp only [run_loop, hst]
      constructor
      · intro h
        injection h with h
        subst h
        exact ⟨0, Nat.succ_pos n, rfl, hst,
          fun j hj => absurd hj (Nat.not_lt_zero j)⟩
      · rintro ⟨k, _, ht, hstop, hmin⟩
        rcases Nat.eq_zero_or_pos k with hk0 | hkpos
        · subst hk0
          rw [Function.iterate_zero_apply] at ht
          rw [ht]
        · have h0 := hmin 0 hkpos
          rw [Function.iterate_zero_apply, hst] at h0
          cases h0
    | false =>
      simp only [run_loop, hst]
      rw [ih (step s)]
      constructor
      · rintro ⟨k, hk, ht, hstop, hmin⟩
        refine ⟨k + 1, Nat.succ_lt_succ hk, ?_, hstop, ?_⟩
        · rw [Function.iterate_succ_apply]
          exact ht
        · intro j hj
          cases j with
          | zero => simpa using hst
          | succ j' =>
            rw [Function.iterate_succ_apply]
            exact hmin j' (Nat.lt_of_succ_lt_succ hj)
      · rintro ⟨k, hk, ht, hstop, hmin⟩
        cases k with
        | zero =>
          rw [Function.iterate_zero_apply] at ht
          subst ht
          rw [hst] at hstop
          cases hstop
        | succ k' =>
          refine ⟨k', Nat.lt_of_succ_lt_succ hk, ?_, hstop, ?_⟩
          · rw [← Function.iterate_succ_apply]
            exact ht
          · intro j hj
            rw [← Function.iterate_succ_apply]
            exact hmin (j + 1) (Nat.succ_lt_succ hj)

theorem no_particles_stop_iff {N G : ℕ} (s : SimState N G) :
    no_particles_on_grids_stop s = true ↔
      (∀ i, on_any_grid s i = false) ∧ (∃ i, 0 < s.entered_grid i) := by
  simp [no_particles_on_grids_stop, List.all_eq_true, List.any_eq_true,
    List.mem_finRange, Bool.not_eq_true']

theorem no_particles_stop_run_init {N G : ℕ} (x v : Fin N → V3) :
    no_particles_on_grids_stop (run_init (G := G) x v) = false := by
  simp [no_particles_on_grids_stop, run_init]

/-- C1. For a tracker on which particles have been loaded, `run`
executes the step loop until the termination condition signals stop: the
loop started from the freshly initialized state returns state `s₁`
exactly when `s₁` is reached from the initial state by whole push steps,
the `NoParticlesOnGrids` predicate holds there (zero particles currently
overlap any grid and at least one particle has ever entered a grid), and
the predicate was false at every earlier step; moreover the predicate is
always false on the freshly initialized state, so the loop never stops
trivially before the simulation starts. -/
theorem run_loop_exits_iff_termination {N G : ℕ} (env : PushEnv N G)
    (fuel : ℕ) (x v : Fin N → V3) (s₁ : SimState N G) :
    (run_loop no_particles_on_grids_stop (push env) fuel (run_init x v) =
        some s₁ ↔
      ∃ k, k < fuel ∧ s₁ = (push env)^[k] (run_init x v) ∧
        ((∀ i, on_any_grid s₁ i = false) ∧ (∃ i, 0 < s₁.entered_grid i)) ∧
        ∀ j, j < k →
          no_particles_on_grids_stop ((push env)^[j] (run_init x v)) = false)
    ∧ no_particles_on_grids_stop (run_init (G := G) x v) = false := by
  constructor
  · rw [run_loop_eq_some_iff]
    apply exists_congr
    intro k
    rw [no_particles_stop_iff]
  · exact no_particles_stop_run_init x v

theorem entered_grid_push {N G : ℕ} (env : PushEnv N G) (s : SimState N G)
    (i : Fin N) :
    (push env s).entered_grid i =
      s.entered_grid i +
        count_on (fun i' g => env.on_grid_oracle g (s.x i')) i := rfl

theorem entered_grid_iterate {N G : ℕ} (env : PushEnv N G)
    (s0 : SimState N G) (i : Fin N) (k : ℕ) :
    ((push env)^[k] s0).entered_grid i = s0.entered_grid i +
      ∑ j in Finset.range k,
        count_on (fun i' g =>
          env.on_grid_oracle g (((push env)^[j] s0).x i')) i := by
  induction k with
  | zero => simp
  | succ n ih =>
    rw [Function.iterate_succ_apply', entered_grid_push, ih,
      Finset.sum_range_succ, Nat.add_assoc]

/-- C9. Within a single run, the `entered_grid` counter starts at zero
for every particle, each push step adds the (non-negative) count of grids
the particle currently occupies — so the counter never decreases across
steps — and after any number of steps the counter is zero exactly when
the particle has been on no grid at every step taken since the run
began. -/
theorem entered_grid_monotone_zero_iff {N G : ℕ} (env : PushEnv N G)
    (x v : Fin N → V3) (i : Fin N) (k : ℕ) :
    (run_init (G := G) x v).entered_grid i = 0 ∧
    (∀ s : SimState N G, s.entered_grid i ≤ (push env s).entered_grid i) ∧
    (((push env)^[k] (run_init x v)).entered_grid i = 0 ↔
      ∀ j, j < k → ∀ g : Fin G,
        env.on_grid_oracle g (((push env)^[j] (run_init x v)).x i) = false) := by
  refine ⟨rfl, ?_, ?_⟩
  · intro s
    rw [entered_grid_push]
    exact Nat.le_add_right _ _
  · rw [entered_grid_iterate]
    simp [run_init, Finset.sum_eq_zero_iff, count_on, List.countP_eq_zero,
      List.mem_finRange, Finset.mem_range]

/-- C2. Contrary to the claim, invoking `run()` a second time on an
already-run tracker does not fail: on a concrete one-particle tracker the
first `run` completes and latches `_has_run`, yet a second `run` on the
resulting tracker returns normally again (silently re-running) instead of
raising a `RuntimeError`-kind error — even though `_enforce_order`, which
`run` never calls, would have raised exactly that error on this tracker. -/
theorem run_second_call_returns_ok :
    run_tracker env₀ stop_now 1 true t₀ = some (.ok t₁) ∧
    run_tracker env₀ stop_now 1 true t₁ = some (.ok t₁) ∧
    t₁.has_run = true ∧
    enforce_order t₁ = .error .runtimeError :=
  ⟨rfl, rfl, rfl, rfl⟩

/-! ## Properties of the adaptive timestep computation -/

theorem norm3_zero : norm3 ((0, 0, 0) : V3) = 0 := by
  simp [norm3]

theorem norm3_axis (c : ℝ) (h : 0 ≤ c) : norm3 ((c, 0, 0) : V3) = c := by
  simp only [norm3]
  rw [show c ^ 2 + (0 : ℝ) ^ 2 + (0 : ℝ) ^ 2 = c ^ 2 by ring]
  exact Real.sqrt_sq h

theorem clip_zero_top (x : ℝ≥0∞) : clip 0 ⊤ x = x := by
  simp [clip]

/-- C10. The adaptive timestep computation divides the grid
resolutions by the population's maximum speed with no zero guard: when
every loaded particle has zero velocity, the interpolated magnetic field
vanishes everywhere, and the dt range is the default `[0, ∞)`, then
`_adaptive_dt` returns an infinite timestep for every particle — the
infinite-fallback substitution (`np.max(gridstep)`) also yields infinity
— rather than any finite value guaranteeing progress. -/
theorem adaptive_dt_no_zero_guard {N G : ℕ} (a : AdaptIn N G)
    (hG : 0 < G)
    (hv : ∀ i, a.v i = (0, 0, 0))
    (hB : ∀ i, a.Bvec i = (0, 0, 0))
    (hds : ∀ g, a.ds g ≠ 0) :
    ∀ i, adaptive_dt (.range 0 ⊤) a i = ⊤ := by
  intro i
  have hvm : vmax a = 0 := by
    refine le_antisymm (Finset.sup_le fun i' _ => ?_) (zero_le _)
    rw [hv i', norm3_zero]
    simp
  have hgs : ∀ g, gridstep a g = ⊤ := by
    intro g
    rw [gridstep, hvm, ENNReal.div_zero (hds g), ENNReal.mul_top]
    norm_num
  have hbm : bmag a = 0 := by
    refine le_antisymm (Finset.sup_le fun i' _ => ?_) (zero_le _)
    rw [hB i', norm3_zero]
    simp
  have hcand : ∀ j, candidate a i j = ⊤ := by
    intro j
    rw [candidate]
    split
    · rw [hgs]
      exact ite_self _
    · rw [gyroperiod, if_pos hbm]
      exact ENNReal.top_div_of_ne_top (by norm_num)
  have hmin : dt_min a 0 ⊤ i = ⊤ := by
    rw [dt_min, Finset.inf_eq_top_iff]
    intro j _
    rw [clip_zero_top, hcand]
  rw [adaptive_dt]
  rw [if_pos hmin]
  refine top_le_iff.mp ?_
  calc (⊤ : ℝ≥0∞) = gridstep a ⟨0, hG⟩ := (hgs _).symm
    _ ≤ _ := Finset.le_sup (Finset.mem_univ _)

theorem adaptive_dt_no_zero_guard_witness :
    (∀ g : Fin 1, a10.ds g ≠ 0) ∧ adaptive_dt (.range 0 ⊤) a10 0 = ⊤ := by
  have hds : ∀ g : Fin 1, a10.ds g ≠ 0 := fun g => one_ne_zero
  exact ⟨hds, adaptive_dt_no_zero_guard a10 one_pos (fun _ => rfl)
    (fun _ => rfl) hds 0⟩

/-- C4. In the adaptive timestep computation with a `[lo, hi]` range
(assuming at least one grid, a nonzero population maximum speed and
finite grid resolutions, so that the grid-resolution candidates are
finite): the final gyroperiod candidate is infinite when the maximum
field magnitude is zero; whenever the per-particle minimum over the
clamped candidates is finite it is the returned timestep, a lower bound
of every clamped candidate and attained at one of them; and whenever that
minimum is infinite the returned timestep is instead `np.max(gridstep)`,
which is the largest of the (all finite) grid-resolution candidates. -/
theorem adaptive_dt_clamp_min_fallback {N G : ℕ} (a : AdaptIn N G)
    (lo hi : ℝ≥0∞) (hG : 0 < G) (hv : vmax a ≠ 0)
    (hds : ∀ g, a.ds g ≠ ⊤) (i : Fin N) :
    (bmag a = 0 → candidate a i (Fin.last G) = ⊤) ∧
    (dt_min a lo hi i ≠ ⊤ →
      adaptive_dt (.range lo hi) a i = dt_min a lo hi i ∧
      (∀ j, adaptive_dt (.range lo hi) a i ≤ clip lo hi (candidate a i j)) ∧
      (∃ j, adaptive_dt (.range lo hi) a i = clip lo hi (candidate a i j))) ∧
    (dt_min a lo hi i = ⊤ →
      adaptive_dt (.range lo hi) a i = Finset.univ.sup (gridstep a) ∧
      ∃ g : Fin G, Finset.univ.sup (gridstep a) = gridstep a g ∧
        gridstep a g ≠ ⊤ ∧ ∀ g', gridstep a g' ≤ gridstep a g) := by
  have hgsfin : ∀ g, gridstep a g ≠ ⊤ := by
    intro g
    refine ENNReal.mul_ne_top (by norm_num) ?_
    rw [Ne, ENNReal.div_eq_top]
    simp [hv, hds g]
  refine ⟨?_, ?_, ?_⟩
  · intro hbm
    rw [candidate, dif_neg (by rw [Fin.val_last]; exact lt_irrefl G)]
    rw [gyroperiod, if_pos hbm]
    exact ENNReal.top_div_of_ne_top (by norm_num)
  · intro hne
    have hdt : adaptive_dt (.range lo hi) a i = dt_min a lo hi i := by
      rw [adaptive_dt, if_neg hne]
    refine ⟨hdt, fun j => ?_, ?_⟩
    · rw [hdt]
      exact Finset.inf_le (Finset.mem_univ j)
    · obtain ⟨j, _, hj⟩ := Finset.exists_mem_eq_inf (Finset.univ : Finset (Fin (G + 1)))
        Finset.univ_nonempty (fun j => clip lo hi (candidate a i j))
      exact ⟨j, by rw [hdt, dt_min, hj]⟩
  · intro htop
    have hdt : adaptive_dt (.range lo hi) a i = Finset.univ.sup (gridstep a) := by
      rw [adaptive_dt, if_pos htop]
    have hne : (Finset.univ : Finset (Fin G)).Nonempty :=
      ⟨⟨0, hG⟩, Finset.mem_univ _⟩
    obtain ⟨g, _, hg⟩ := Finset.exists_mem_eq_sup _ hne (gridstep a)
    refine ⟨hdt, g, hg, hgsfin g, fun g' => ?_⟩
    rw [← hg]
    exact Finset.le_sup (Finset.mem_univ g')

theorem vmax_a4 : vmax a4 = 1 := by
  have : ∀ i : Fin 1, ENNReal.ofReal (norm3 (a4.v i)) = 1 := by
    intro i
    rw [show a4.v i = ((1 : ℝ), (0 : ℝ), (0 : ℝ)) from rfl,
      norm3_axis 1 zero_le_one, ENNReal.ofReal_one]
  rw [vmax]
  refine le_antisymm (Finset.sup_le fun i _ => (this i).le) ?_
  calc (1 : ℝ≥0∞) = ENNReal.ofReal (norm3 (a4.v 0)) := (this 0).symm
    _ ≤ _ := Finset.le_sup (f := fun i => ENNReal.ofReal (norm3 (a4.v i)))
        (Finset.mem_univ 0)

theorem adaptive_dt_clamp_min_fallback_witness :
    vmax a4 ≠ 0 ∧
    adaptive_dt (.range 0 ⊤) a4 0 = dt_min a4 0 ⊤ 0 := by
  have hv : vmax a4 ≠ 0 := by rw [vmax_a4]; exact one_ne_zero
  have hds : ∀ g : Fin 1, a4.ds g ≠ ⊤ := fun _ => by
    rw [show a4.ds _ = 1 from rfl]
    exact ENNReal.one_ne_top
  have hgs : gridstep a4 ⟨0, one_pos⟩ = 1 / 2 := by
    rw [gridstep, vmax_a4, show a4.ds _ = 1 from rfl]
    simp
  have hcand : candidate a4 0 (0 : Fin 2) = 1 / 2 := by
    rw [candidate, dif_pos (show ((0 : Fin 2) : ℕ) < 1 by norm_num)]
    rw [if_pos (show a4.on_grid 0 _ = true from rfl)]
    exact hgs
  have hmin : dt_min a4 0 ⊤ 0 ≠ ⊤ := by
    refine ne_top_of_le_ne_top (show (1 / 2 : ℝ≥0∞) ≠ ⊤ by norm_num) ?_
    calc dt_min a4 0 ⊤ 0 ≤ clip 0 ⊤ (candidate a4 0 (0 : Fin 2)) :=
          Finset.inf_le (Finset.mem_univ _)
      _ = 1 / 2 := by rw [clip_zero_top, hcand]
  exact ⟨hv, ((adaptive_dt_clamp_min_fallback a4 0 ⊤ one_pos hv hds 0).2.1 hmin).1⟩

theorem norm3_a3 : ∀ i : Fin 2,
    ENNReal.ofReal (norm3 (a3.v i)) = ENNReal.ofReal (((i : ℕ) : ℝ) + 1) := by
  intro i
  rw [show a3.v i = ((((i : ℕ) : ℝ) + 1, 0, 0) : V3) from rfl]
  rw [norm3_axis _ (by positivity)]

theorem vmax_a3 : vmax a3 = 2 := by
  rw [vmax]
  refine le_antisymm (Finset.sup_le fun i _ => ?_) ?_
  · rw [norm3_a3 i]
    calc ENNReal.ofReal (((i : ℕ) : ℝ) + 1) ≤ ENNReal.ofReal 2 := by
          refine ENNReal.ofReal_le_ofReal ?_
          have : (i : ℕ) ≤ 1 := Nat.lt_succ_iff.mp i.isLt
          have : ((i : ℕ) : ℝ) ≤ 1 := by exact_mod_cast this
          linarith
      _ = 2 := by norm_num
  · calc (2 : ℝ≥0∞) = ENNReal.ofReal (((1 : ℕ) : ℝ) + 1) := by norm_num
      _ = ENNReal.ofReal (norm3 (a3.v 1)) := (norm3_a3 1).symm
      _ ≤ _ := Finset.le_sup (f := fun i => ENNReal.ofReal (norm3 (a3.v i)))
          (Finset.mem_univ 1)

/-- C3 counterexample. On a concrete two-particle input (speeds `1`
and `2`, one shared grid of unit resolution), the source's
grid-resolution candidate for the slow particle is `1/4` — half the
resolution divided by the population-wide maximum speed `2` — and not the
claim's `1/2`, half the resolution divided by that particle's own speed. -/
theorem grid_candidate_not_per_particle :
    candidate a3 0 (0 : Fin 2) ≠ candidate_per_particle a3 0 0 := by
  have hlhs : candidate a3 0 (0 : Fin 2) = 1 / 4 := by
    rw [candidate, dif_pos (show ((0 : Fin 2) : ℕ) < 1 by norm_num)]
    rw [if_pos (show a3.on_grid 0 _ = true from rfl)]
    rw [gridstep, vmax_a3, show a3.ds _ = 1 from rfl]
    rw [ENNReal.div_eq_inv_mul, mul_one]
    rw [ENNReal.div_eq_inv_mul, mul_one]
    rw [show (4 : ℝ≥0∞) = 2 * 2 by norm_num, ENNReal.mul_inv (by norm_num) (by norm_num)]
  have hrhs : candidate_per_particle a3 0 0 = 1 / 2 := by
    rw [candidate_per_particle, if_pos (show a3.on_grid 0 0 = true from rfl)]
    rw [show ENNReal.ofReal (norm3 (a3.v 0)) = 1 by
      rw [norm3_a3 0]; norm_num]
    rw [show a3.ds 0 = 1 from rfl]
    simp
  rw [hlhs, hrhs]
  intro h
  rw [ENNReal.div_eq_inv_mul, mul_one, ENNReal.div_eq_inv_mul, mul_one] at h
  have h24 : (4 : ℝ≥0∞) = 2 := inv_inj.mp h
  norm_num at h24

/-- C3 (amended). For every particle and every grid that particle
currently occupies, the grid-resolution candidate timestep equals half
that grid's local resolution divided by the population-wide maximum
instantaneous speed `vmax` — so all particles occupying a grid share the
same candidate for it — and a grid the particle does not occupy
contributes an infinite candidate. -/
theorem grid_candidate_uses_population_vmax {N G : ℕ} (a : AdaptIn N G)
    (i : Fin N) (j : Fin (G + 1)) (h : (j : ℕ) < G) :
    (a.on_grid i ⟨j, h⟩ = true →
      candidate a i j = (1 / 2 : ℝ≥0∞) * (a.ds ⟨j, h⟩ / vmax a) ∧
      ∀ i', a.on_grid i' ⟨j, h⟩ = true → candidate a i' j = candidate a i j) ∧
    (a.on_grid i ⟨j, h⟩ = false → candidate a i j = ⊤) := by
  constructor
  · intro hon
    constructor
    · rw [candidate, dif_pos h, if_pos hon]
      rfl
    · intro i' hon'
      rw [candidate, dif_pos h, if_pos hon', candidate, dif_pos h, if_pos hon]
  · intro hoff
    rw [candidate, dif_pos h, hoff]
    rfl

theorem grid_candidate_uses_population_vmax_witness :
    a3.on_grid 0 ⟨0, one_pos⟩ = true ∧
    candidate a3 0 (0 : Fin 2) =
      (1 / 2 : ℝ≥0∞) * (a3.ds ⟨0, one_pos⟩ / vmax a3) :=
  ⟨rfl, ((grid_candidate_uses_population_vmax a3 0 (0 : Fin 2)
    (by norm_num)).1 rfl).1⟩

theorem mem_triples {n₁ n₂ n₃ : ℕ} (t : Fin n₁ × Fin n₂ × Fin n₃) :
    t ∈ triples n₁ n₂ n₃ := by
  simp only [triples, List.mem_flatMap, List.mem_map, List.mem_finRange]
  exact ⟨t.1, trivial, t.2.1, trivial, t.2.2, trivial, rfl⟩

theorem maxR_nonneg (l : List ℝ) : 0 ≤ maxR l := by
  induction l with
  | nil => exact le_refl 0
  | cons x rest ih => exact le_trans ih (le_max_right x (maxR rest))

theorem maxR_cons (x : ℝ) (l : List ℝ) : maxR (x :: l) = max x (maxR l) := rfl

theorem maxR_filter_partition {α : Type} (p : α → Bool) (f : α → ℝ)
    (l : List α) :
    maxR (l.map f) =
      max (maxR ((l.filter p).map f))
        (maxR ((l.filter fun x => !p x).map f)) := by
  induction l with
  | nil => simp [maxR]
  | cons x rest ih =>
    cases hx : p x with
    | true =>
      simp only [List.map_cons, List.filter_cons, hx, Bool.not_true,
        if_true, if_false, Bool.false_eq_true]
      rw [maxR_cons, maxR_cons, ih, max_assoc]
    | false =>
      simp only [List.map_cons, List.filter_cons, hx, Bool.not_false,
        if_true, if_false, Bool.false_eq_true]
      rw [maxR_cons, maxR_cons, ih, max_left_comm]

theorem global_max_eq_max_edge_interior (a : QArr) :
    global_max a = max (edge_max a) (interior_max a) :=
  maxR_filter_partition a.isFace a.absAt (triples a.n₁ a.n₂ a.n₃)

theorem check_quantities_error_iff {Q : Type} (g : Q → QArr) (rqs : List Q) :
    check_quantities g rqs = .error .valueError ↔
      ∃ rq ∈ rqs, (g rq).finiteAll = false := by
  induction rqs with
  | nil => simp [check_quantities]
  | cons rq rest ih =>
    cases h : (g rq).finiteAll with
    | false => simp [check_quantities, h]
    | true => simp [check_quantities, h, ih]

theorem check_quantities_ok_iff {Q : Type} (g : Q → QArr) (rqs : List Q) :
    check_quantities g rqs = .ok () ↔
      ∀ rq ∈ rqs, (g rq).finiteAll = true := by
  induction rqs with
  | nil => simp [check_quantities]
  | cons rq rest ih =>
    cases h : (g rq).finiteAll with
    | false => simp [check_quantities, h]
    | true => simp [check_quantities, h, ih]

theorem check_quantities_total {Q : Type} (g : Q → QArr) (rqs : List Q) :
    check_quantities g rqs = .ok () ∨
      check_quantities g rqs = .error .valueError := by
  induction rqs with
  | nil => exact Or.inl rfl
  | cons rq rest ih =>
    cases h : (g rq).finiteAll with
    | false => exact Or.inr (by simp [check_quantities, h])
    | true => simpa [check_quantities, h] using ih

theorem tracker_init_error_iff {Q : Type} (grids : List (Q → QArr))
    (rqs : List Q) :
    tracker_init grids (some rqs) = .error .valueError ↔
      ∃ g ∈ grids, ∃ rq ∈ rqs, (g rq).finiteAll = false := by
  induction grids with
  | nil => simp [tracker_init]
  | cons g rest ih =>
    rcases check_quantities_total g rqs with hok | herr
    · simp only [tracker_init, hok]
      rw [ih]
      simp only [List.mem_cons]
      constructor
      · rintro ⟨g', hg', rq, hrq, hb⟩
        exact ⟨g', Or.inr hg', rq, hrq, hb⟩
      · rintro ⟨g', hg', rq, hrq, hb⟩
        rcases hg' with rfl | hg'
        · rw [(check_quantities_ok_iff g' rqs).mp hok rq hrq] at hb
          cases hb
        · exact ⟨g', hg', rq, hrq, hb⟩
    · simp only [tracker_init, herr]
      constructor
      · intro _
        obtain ⟨rq, hrq, hb⟩ := (check_quantities_error_iff g rqs).mp herr
        exact ⟨g, List.mem_cons_self g rest, rq, hrq, hb⟩
      · intro _
        trivial

theorem tracker_init_ok {Q : Type} (grids : List (Q → QArr)) (rqs : List Q)
    (h : ∀ g ∈ grids, ∀ rq ∈ rqs, (g rq).finiteAll = true) :
    tracker_init grids (some rqs) = .ok () := by
  induction grids with
  | nil => rfl
  | cons g rest ih =>
    have hok : check_quantities g rqs = .ok () :=
      (check_quantities_ok_iff g rqs).mpr
        (fun rq hrq => h g (List.mem_cons_self g rest) rq hrq)
    simp only [tracker_init, hok]
    exact ih fun g' hg' => h g' (List.mem_cons_of_mem g hg')

/-- C7. At construction, for every required field quantity on every
grid: the non-fatal stability warning fires exactly when the quantity's
maximum absolute value over the six boundary faces exceeds `0.1%` of its
interior maximum (the source compares against the whole-array maximum,
which is equivalent); a non-finite entry in a required quantity instead
makes construction fail with a `ValueError`-kind error; and when every
required quantity on every grid is finite, construction returns normally
— the warning never aborts it. -/
theorem construction_warning_iff_and_finite_fatal {Q : Type}
    (grids : List (Q → QArr)) (rqs : List Q) (a : QArr) :
    (warns a ↔ edge_max a > (1 / 1000) * interior_max a) ∧
    (tracker_init grids (some rqs) = .error .valueError ↔
      ∃ g ∈ grids, ∃ rq ∈ rqs, (g rq).finiteAll = false) ∧
    ((∀ g ∈ grids, ∀ rq ∈ rqs, (g rq).finiteAll = true) →
      tracker_init grids (some rqs) = .ok ()) := by
  refine ⟨?_, tracker_init_error_iff grids rqs, tracker_init_ok grids rqs⟩
  have he : 0 ≤ edge_max a := maxR_nonneg _
  have hi : 0 ≤ interior_max a := maxR_nonneg _
  rw [warns, global_max_eq_max_edge_interior a]
  rcases le_total (edge_max a) (interior_max a) with hle | hle
  · rw [max_eq_right hle]
  · rw [max_eq_left hle]
    constructor
    · intro h
      have h0 : 0 ≤ (1 / 1000 : ℝ) * edge_max a := by positivity
      have hpos : 0 < edge_max a := lt_of_le_of_lt h0 h
      have hmono : (1 / 1000 : ℝ) * interior_max a ≤ (1 / 1000) * edge_max a :=
        mul_le_mul_of_nonneg_left hle (by norm_num)
      linarith
    · intro h
      have h0 : 0 ≤ (1 / 1000 : ℝ) * interior_max a := by positivity
      have hpos : 0 < edge_max a := lt_of_le_of_lt h0 h
      linarith

theorem construction_warning_iff_and_finite_fatal_witness :
    tracker_init [grid7] (some [()]) = .ok () :=
  (construction_warning_iff_and_finite_fatal [grid7] [()] qa7).2.2
    (by
      intro g hg rq hrq
      have hgg : g = grid7 := by simpa using hg
      subst hgg
      rfl)

/-- C8 (amended). Constructing a `ParticleTracker` without supplying
`req_quantities` (leaving the default `None`) raises an error before
construction completes for every grids argument containing at least one
grid (with each grid's `require_quantities` call returning normally),
because the constructor unconditionally iterates over `req_quantities`
inside the per-grid loop, and iterating `None` raises `TypeError`. -/
theorem init_none_req_raises {Q : Type} (g : Q → QArr)
    (rest : List (Q → QArr)) :
    tracker_init (g :: rest) none = .error .typeError := rfl

/-- C8 counterexample. With an empty grids list — accepted by the
grid-type dispatch, and vacuously satisfying the claim's proviso that
every `require_quantities` call return normally — the per-grid loop body
never runs, so construction with `req_quantities = None` completes
normally instead of raising. -/
theorem init_none_req_empty_grids_ok :
    tracker_init ([] : List (Unit → QArr)) none = .ok () := rfl

/-- C5. On any tracker state, `stop_particles` with a full-true mask
succeeds and sets every particle's velocity components to NaN while
leaving the positions exactly as they were (in particular finite
positions stay finite); `remove_particles` with a full-true mask
additionally sets every position component to NaN; and for every mask
whose length differs from the particle count, both operations fail with
a `ValueError`-kind error. -/
theorem stop_remove_particles_spec {N : ℕ} (s : PState N) :
    (∃ s₁, stop_particles s (List.replicate N true) = .ok s₁ ∧
      (∀ i, s₁.v i = (.nan, .nan, .nan)) ∧
      (∀ i, s₁.x i = s.x i) ∧
      (∀ i, finite3 (s.x i) = true → finite3 (s₁.x i) = true)) ∧
    (∃ s₂, remove_particles s (List.replicate N true) = .ok s₂ ∧
      (∀ i, s₂.v i = (.nan, .nan, .nan)) ∧
      (∀ i, s₂.x i = (.nan, .nan, .nan))) ∧
    (∀ mask : List Bool, mask.length ≠ N →
      stop_particles s mask = .error .valueError ∧
      remove_particles s mask = .error .valueError) := by
  have hlen : (List.replicate N true).length = N := List.length_replicate N true
  refine ⟨?_, ?_, ?_⟩
  · refine ⟨⟨s.x, fun i =>
      if (List.replicate N true).get (Fin.cast hlen.symm i) then
        (.nan, .nan, .nan)
      else s.v i⟩, by rw [stop_particles, dif_pos hlen], ?_, fun i => rfl, ?_⟩
    · intro i
      simp [List.get_replicate]
    · intro i h
      exact h
  · refine ⟨_, by rw [remove_particles, dif_pos hlen], ?_, ?_⟩
    · intro i
      simp [List.get_replicate]
    · intro i
      simp [List.get_replicate]
  · intro mask hm
    exact ⟨by rw [stop_particles, dif_neg hm], by rw [remove_particles, dif_neg hm]⟩

theorem stop_remove_particles_spec_witness :
    stop_particles ps5 [true, true] = .error .valueError ∧
    remove_particles ps5 [true, true] = .error .valueError :=
  (stop_remove_particles_spec ps5).2.2 [true, true] (by norm_num)

theorem count_on_one_of_true (og : Fin 1 → Fin 1 → Bool) (i : Fin 1)
    (h : og i 0 = true) : count_on og i = 1 := by
  rw [count_on, show (List.finRange 1) = [0] from rfl]
  simp [h]

theorem count_on_zero_of_false (og : Fin 1 → Fin 1 → Bool) (i : Fin 1)
    (h : og i 0 = false) : count_on og i = 0 :=
  List.countP_eq_zero.mpr fun g _ => by
    rw [show g = (0 : Fin 1) from Subsingleton.elim g 0, h]
    simp

theorem env1_oracle_init (i g : Fin 1) :
    env1.on_grid_oracle g ((run_init (G := 1) x1 x1).x i) = true := by
  show (if ((0 : ℝ) = 0) then true else false) = true
  rw [if_pos rfl]

theorem env1_oracle_second (i g : Fin 1) :
    env1.on_grid_oracle g ((push env1 (run_init x1 x1)).x i) = false := by
  show (if ((1 : ℝ) = 0) then true else false) = false
  rw [if_neg one_ne_zero]

theorem env1_entered_pos :
    0 < ((push env1)^[2] (run_init x1 x1)).entered_grid 0 := by
  show 0 < (push env1 (push env1 (run_init x1 x1))).entered_grid 0
  rw [entered_grid_push]
  refine Nat.lt_of_lt_of_le ?_ (Nat.le_add_right _ _)
  rw [entered_grid_push]
  rw [count_on_one_of_true
    (fun i' g => env1.on_grid_oracle g ((run_init x1 x1).x i')) 0
    (env1_oracle_init 0 0)]
  exact Nat.succ_pos _

theorem env1_stop_false_step1 :
    no_particles_on_grids_stop (push env1 (run_init x1 x1)) = false := by
  have hany : on_any_grid (push env1 (run_init x1 x1)) 0 = true := by
    rw [on_any_grid, count_on_one_of_true
      ((push env1 (run_init x1 x1)).on_grid) 0 (env1_oracle_init 0 0)]
    rfl
  rw [no_particles_on_grids_stop, show (List.finRange 1) = [0] from rfl]
  simp [hany]

theorem env1_s2_on_any_false (i : Fin 1) :
    on_any_grid ((push env1)^[2] (run_init x1 x1)) i = false := by
  rw [on_any_grid, count_on_zero_of_false
    (((push env1)^[2] (run_init x1 x1)).on_grid) i
    (env1_oracle_second i 0)]
  rfl

theorem run_loop_exits_iff_termination_witness :
    run_loop no_particles_on_grids_stop (push env1) 3 (run_init x1 x1) =
      some ((push env1)^[2] (run_init x1 x1)) := by
  refine (run_loop_exits_iff_termination env1 3 x1 x1 _).1.mpr
    ⟨2, by norm_num, rfl, ⟨env1_s2_on_any_false, ⟨0, env1_entered_pos⟩⟩, ?_⟩
  intro j hj
  interval_cases j
  · exact no_particles_stop_run_init x1 x1
  · exact env1_stop_false_step1

theorem entered_grid_monotone_zero_iff_witness :
    (run_init (G := 1) x1 x1).entered_grid 0 = 0 :=
  (entered_grid_monotone_zero_iff env1 x1 x1 0 0).1

end PlasmaPy
